import Mathlib

/-!
Verification of the LakeMapper fish-survey fetch/cache/parse subsystem
(`src/lakemapper/fish_survey_fetcher.py`, configuration in
`src/lakemapper/config.py`).

The Python code is shallowly embedded: JSON / Python values are the
inductive `JValue`; operations that can raise (`d[k]`, `.get` on a
non-dict, `len`, iteration, `<` between incomparable values, `+` on
non-numbers) live in `Except String`, the error string standing for the
exception's message; `float(...)` on decimal literals is `pyFloat`.
The network transport is abstracted as a function from attempt index to
a `TransportResult`; the file system backing the cache is a per-key
`Option CacheFile` threaded through explicitly.
-/

/-- A Python/JSON value as produced by `json.loads`: `None`, `bool`,
numbers (modelled as `ℚ`; every payload literal the claims touch is
exactly representable), strings, lists and dicts (insertion-ordered
association lists with distinct keys). -/
inductive JValue where
  | null
  | bool (b : Bool)
  | num (q : ℚ)
  | str (s : String)
  | arr (elems : List JValue)
  | obj (fields : List (String × JValue))

/-- First binding of `key` in an association list (Python dicts have
unique keys, so first-match lookup agrees with dict lookup). -/
def lookupField : List (String × JValue) → String → Option JValue
  | [], _ => none
  | (k, v) :: rest, key => if k = key then some v else lookupField rest key

/-- Python truthiness (`bool(v)`). -/
def truthy : JValue → Bool
  | .null => false
  | .bool b => b
  | .num q => decide (q ≠ 0)
  | .str s => decide (s ≠ "")
  | .arr xs => !xs.isEmpty
  | .obj fs => !fs.isEmpty

/-- `needle` occurs as a contiguous run at the head of `hay`. -/
def isSubListAt : List Char → List Char → Bool
  | [], _ => true
  | _ :: _, [] => false
  | a :: as, b :: bs => a = b && isSubListAt as bs

/-- `needle` occurs as a contiguous run anywhere in `hay`
(Python `needle in hay` for strings). -/
def substrCheck (needle hay : List Char) : Bool :=
  match hay with
  | [] => needle.isEmpty
  | _ :: rest => isSubListAt needle hay || substrCheck needle rest

/-- Python `key in container`: dict key membership, list membership,
substring test for strings; `TypeError` on non-containers. -/
def pyContains (container : JValue) (key : String) : Except String Bool :=
  match container with
  | .obj fs => .ok (lookupField fs key).isSome
  | .arr xs =>
    .ok (xs.any (fun v =>
      match v with
      | .str t => decide (t = key)
      | _ => false))
  | .str s => .ok (substrCheck key.toList s.toList)
  | _ => .error "TypeError: argument of type is not iterable"

/-- Python `container[key]` for a string key: dict lookup (`KeyError`
when absent), `TypeError` on anything else. -/
def pySubscript (container : JValue) (key : String) : Except String JValue :=
  match container with
  | .obj fs =>
    match lookupField fs key with
    | some v => .ok v
    | none => .error "KeyError"
  | _ => .error "TypeError: value is not subscriptable by str"

/-- Python `v.get(key, dflt)`: only dicts have `.get`; anything else
raises `AttributeError`. -/
def pyGet (v : JValue) (key : String) (dflt : JValue) : Except String JValue :=
  match v with
  | .obj fs => .ok ((lookupField fs key).getD dflt)
  | _ => .error "AttributeError: object has no attribute get"

/-- Python `len(v)`. -/
def pyLen : JValue → Except String ℕ
  | .arr xs => .ok xs.length
  | .str s => .ok s.length
  | .obj fs => .ok fs.length
  | _ => .error "TypeError: object has no len"

/-- Python iteration `for x in v`: list elements, characters of a
string, keys of a dict; `TypeError` otherwise. -/
def pyIter : JValue → Except String (List JValue)
  | .arr xs => .ok xs
  | .str s => .ok (s.toList.map (fun c => .str c.toString))
  | .obj fs => .ok (fs.map (fun kv => .str kv.1))
  | _ => .error "TypeError: object is not iterable"

/-- Numeric view of a value: Python treats `bool` as a number
(`True == 1`). -/
def pyNumVal : JValue → Option ℚ
  | .num q => some q
  | .bool b => some (if b then 1 else 0)
  | _ => none

/-- Lexicographic comparison of character lists by code point — the
order Python uses for `str < str`. -/
def charListLt : List Char → List Char → Bool
  | [], [] => false
  | [], _ :: _ => true
  | _ :: _, [] => false
  | a :: as, b :: bs =>
    if a.toNat < b.toNat then true
    else if b.toNat < a.toNat then false
    else charListLt as bs

/-- Python `a < b` for the value kinds that occur as sort keys:
strings compare lexicographically by code point, numbers (and bools)
numerically; any mixed pair raises `TypeError`. -/
def pyLt (a b : JValue) : Except String Bool :=
  match a, b with
  | .str x, .str y => .ok (charListLt x.toList y.toList)
  | _, _ =>
    match pyNumVal a, pyNumVal b with
    | some x, some y => .ok (decide (x < y))
    | _, _ => .error "TypeError: values are not comparable"

/-- Rational addition written with `mkRat` so that it reduces inside the
kernel (`Rat.add` is `@[irreducible]`); `ratAdd_eq` below identifies it
with `+`. -/
def ratAdd (x y : ℚ) : ℚ := mkRat (x.num * y.den + y.num * x.den) (x.den * y.den)

/-- Rational subtraction written with `mkRat` so that it reduces inside
the kernel (`Rat.sub` is `@[irreducible]`); `ratSub_eq` below
identifies it with `-`. Used for the cache-age computation
`time.time() - cache_file.stat().st_mtime`. -/
def ratSub (x y : ℚ) : ℚ := mkRat (x.num * y.den - y.num * x.den) (x.den * y.den)

/-- Python `a + b` as used for `total_fish += count`: defined when both
sides are numeric (including bools); `TypeError` otherwise (in the
source the left side is always a number, so string concatenation never
occurs on this path). -/
def pyAdd (a b : JValue) : Except String JValue :=
  match pyNumVal a, pyNumVal b with
  | some x, some y => .ok (.num (ratAdd x y))
  | _, _ => .error "TypeError: unsupported operand types for +"

/-- Value of a digit character, `none` for non-digits. -/
def digitVal (c : Char) : Option ℕ :=
  if c.isDigit then some (c.toNat - 48) else none

/-- Accumulate a digit run into a natural number; returns the value,
the number of digits consumed, and the rest. -/
def readDigits : List Char → ℕ → ℕ → (ℕ × ℕ × List Char)
  | [], acc, n => (acc, n, [])
  | c :: rest, acc, n =>
    match digitVal c with
    | some d => readDigits rest (acc * 10 + d) (n + 1)
    | none => (acc, n, c :: rest)

/-- Modelled Python `float(s)` on decimal literals:
`[+|-] digits [. digits] [(e|E) [+|-] digits]`, requiring at least one
digit in the mantissa, with surrounding whitespace already stripped.
(The `inf`/`nan`/underscore spellings of the Python grammar are omitted;
no payload the claims exercise uses them.) -/
def parseDecimalCore (cs : List Char) : Option ℚ :=
  let (signNeg, cs1) : Bool × List Char :=
    match cs with
    | '+' :: rest => (false, rest)
    | '-' :: rest => (true, rest)
    | rest => (false, rest)
  let (ip, ipn, cs2) := readDigits cs1 0 0
  let (fp, fpn, cs3) :=
    match cs2 with
    | '.' :: rest => readDigits rest 0 0
    | rest => (0, 0, rest)
  let consumedDot : Bool :=
    match cs2 with
    | '.' :: _ => true
    | _ => false
  if ipn = 0 ∧ (consumedDot = false ∨ fpn = 0) then none
  else
    let mNum : Int := (if signNeg then -1 else 1) * ((ip : Int) * 10 ^ fpn + fp)
    let mDen : ℕ := 10 ^ fpn
    match cs3 with
    | [] => some (mkRat mNum mDen)
    | e :: rest =>
      if e = 'e' ∨ e = 'E' then
        let (eNeg, rest1) : Bool × List Char :=
          match rest with
          | '+' :: r => (false, r)
          | '-' :: r => (true, r)
          | r => (false, r)
        let (ev, evn, rest2) := readDigits rest1 0 0
        if evn = 0 ∨ ¬ rest2.isEmpty then none
        else if eNeg then some (mkRat mNum (mDen * 10 ^ ev))
        else some (mkRat (mNum * 10 ^ ev) mDen)
      else none

/-- Whitespace characters that Python `float(str)` strips. -/
def isPySpace (c : Char) : Bool :=
  c = ' ' || c = '\t' || c = '\n' || c = '\r' || c = '\x0b' || c = '\x0c'

/-- Strip leading and trailing whitespace from a character list. -/
def trimChars (cs : List Char) : List Char :=
  ((cs.dropWhile isPySpace).reverse.dropWhile isPySpace).reverse

/-- Python `float(v)` for a non-`None` argument: numbers pass through,
bools become 0/1, strings are parsed (whitespace-trimmed), everything
else is a `TypeError` (`none`). -/
def pyFloat : JValue → Option ℚ
  | .num q => some q
  | .bool b => some (if b then 1 else 0)
  | .str s => parseDecimalCore (trimChars s.toList)
  | _ => none

/-- The source's weight/CPUE coercion: `None` stays `None`; otherwise
`float(value)` is attempted and any `ValueError`/`TypeError` is caught,
leaving `None` (fish_survey_fetcher.py lines 196-211). -/
def coerceNumeric (v : JValue) : JValue :=
  match v with
  | .null => .null
  | w =>
    match pyFloat w with
    | some q => .num q
    | none => .null

/-!
## RecordParser: `parse_fish_survey_data` (fish_survey_fetcher.py 94-235)

The function body runs inside `try ... except Exception`, modelled by
`Except String`: `parseBody` is the `try` block producing the five
fields of `parsed_data` (a `ParsedCore`); `parse_fish_survey_data`
installs the `except` handler, which discards partial results and
returns the zero summary extended with a `parse_error` field.
-/

/-- The candidate filter of the two list comprehensions (lines 133-138
and 148-153): `s.get('surveyType') == ty and s.get('fishCatchSummaries')
and len(s.get('fishCatchSummaries', [])) > 0`, with Python's
short-circuit evaluation. -/
def isTypeWithCatch (ty : String) (s : JValue) : Except String Bool := do
  let t ← pyGet s "surveyType" .null
  match t with
  | .str u =>
    if u = ty then do
      let f ← pyGet s "fishCatchSummaries" .null
      if truthy f then do
        let f2 ← pyGet s "fishCatchSummaries" (.arr [])
        let n ← pyLen f2
        .ok (decide (n > 0))
      else .ok false
    else .ok false
  | _ => .ok false

/-- Effectful filter: a Python list comprehension whose predicate can
raise, evaluated left to right. -/
def filterE (p : JValue → Except String Bool) : List JValue → Except String (List JValue)
  | [] => .ok []
  | x :: xs => do
    let b ← p x
    let rest ← filterE p xs
    .ok (if b then x :: rest else rest)

/-- `cands.sort(key=lambda x: x.get('surveyDate', ''), reverse=True)`
followed by `cands[0]` (lines 142-143, 157-158). Python's sort is
stable, and `reverse=True` reverses comparisons without disturbing the
relative order of equal keys, so element 0 is the first element
attaining the maximal key; the fold below computes exactly that,
raising `TypeError` on an incomparable pair of keys just as the sort
does. -/
def selectMostRecent (cands : List JValue) : Except String (Option JValue) :=
  match cands with
  | [] => .ok none
  | x :: xs => do
    let best ← xs.foldlM (fun best y => do
      let bk ← pyGet best "surveyDate" (.str "")
      let yk ← pyGet y "surveyDate" (.str "")
      let lt ← pyLt bk yk
      .ok (if lt then y else best)) x
    .ok (some best)

/-- The fallback loop (lines 162-167): first survey in original order
with a truthy, non-zero-length `fishCatchSummaries`. -/
def firstWithCatch : List JValue → Except String (Option JValue)
  | [] => .ok none
  | s :: rest => do
    let f ← pyGet s "fishCatchSummaries" .null
    if truthy f then do
      let f2 ← pyGet s "fishCatchSummaries" (.arr [])
      let n ← pyLen f2
      if n > 0 then .ok (some s) else firstWithCatch rest
    else firstWithCatch rest

/-- The full selection heuristic (lines 129-167): most recent
`Standard Survey` with catch data, else most recent `Targeted Survey`
with catch data, else the first survey with any catch data. -/
def selectSurvey (surveys : List JValue) : Except String (Option JValue) := do
  let stdCands ← filterE (isTypeWithCatch "Standard Survey") surveys
  match ← selectMostRecent stdCands with
  | some s => .ok (some s)
  | none => do
    let tgtCands ← filterE (isTypeWithCatch "Targeted Survey") surveys
    match ← selectMostRecent tgtCands with
    | some s => .ok (some s)
    | none => firstWithCatch surveys

/-- `species_info` (lines 179-211): the raw fields of one catch entry
assembled into a dict, with the `average` and `total` weight statistics
and the CPUE coerced to float-or-`None`; `quartile` is carried through
as-is (the coercion loop at line 197 iterates over
`['average', 'total']` only). -/
def mkSpeciesInfo (name count avgW totW quartW gear cpue : JValue) : JValue :=
  .obj [("species_name", name),
        ("count", count),
        ("length_stats", .obj [("average", .null), ("minimum", .null), ("maximum", .null)]),
        ("weight_stats", .obj [("average", coerceNumeric avgW), ("total", coerceNumeric totW),
                               ("quartile", quartW)]),
        ("gear", gear),
        ("cpue", coerceNumeric cpue)]

/-- The `for catch_summary in selected_survey['fishCatchSummaries']`
loop (lines 178-214): builds the species list in order and accumulates
`total_fish += species_info['count']`, which raises `TypeError` when a
count is not numeric. -/
def catchLoop : List JValue → List JValue → JValue → Except String (List JValue × JValue)
  | [], species, total => .ok (species, total)
  | c :: rest, species, total => do
    let name ← pyGet c "species" (.str "Unknown")
    let count ← pyGet c "totalCatch" (.num 0)
    let avgW ← pyGet c "averageWeight" .null
    let totW ← pyGet c "totalWeight" .null
    let quartW ← pyGet c "quartileWeight" .null
    let gear ← pyGet c "gear" (.str "Unknown")
    let cpue ← pyGet c "CPUE" .null
    let info := mkSpeciesInfo name count avgW totW quartW gear cpue
    let total2 ← pyAdd total count
    catchLoop rest (species ++ [info]) total2

/-- The five keys of `parsed_data` (lines 104-110), before the
`except` handler may add `parse_error`. -/
structure ParsedCore where
  survey_date : JValue
  survey_method : JValue
  survey_type : JValue
  fish_species : List JValue
  total_fish_caught : JValue

/-- `parsed_data` as initialised at lines 104-110. -/
def zeroCore : ParsedCore := ⟨.null, .null, .null, [], .num 0⟩

/-- `parsed_data` rendered as the returned dict (key order as
initialised; updates in the source mutate existing keys only). -/
def ParsedCore.toObj (c : ParsedCore) : JValue :=
  .obj [("survey_date", c.survey_date),
        ("survey_method", c.survey_method),
        ("survey_type", c.survey_type),
        ("fish_species", .arr c.fish_species),
        ("total_fish_caught", c.total_fish_caught)]

/-- The dict built by the `except` handler (lines 226-233). -/
def errorObj (e : String) : JValue :=
  .obj [("survey_date", .null),
        ("survey_method", .null),
        ("survey_type", .null),
        ("fish_species", .arr []),
        ("total_fish_caught", .num 0),
        ("parse_error", .str e)]

/-- The `try` block of `parse_fish_survey_data` (lines 112-222). -/
def parseBody (raw : JValue) : Except String ParsedCore := do
  let hasResult ← pyContains raw "result"
  if hasResult = false then .ok zeroCore else do
  let result ← pySubscript raw "result"
  match result with
  | .obj _ => do
    let hasSurveys ← pyContains result "surveys"
    let surveysTruthy ←
      if hasSurveys then do
        let sv ← pySubscript result "surveys"
        .ok (truthy sv)
      else .ok false
    if surveysTruthy = false then .ok zeroCore
    else do
      let surveysV ← pySubscript result "surveys"
      let surveyList ← pyIter surveysV
      match ← selectSurvey surveyList with
      | none => .ok zeroCore
      | some sel => do
        let date ← pyGet sel "surveyDate" .null
        let method ← pyGet sel "surveyMethod" .null
        let ty ← pyGet sel "surveyType" .null
        let hasCatch ← pyContains sel "fishCatchSummaries"
        if hasCatch then do
          let catchesV ← pySubscript sel "fishCatchSummaries"
          let catches ← pyIter catchesV
          let (species, total) ← catchLoop catches [] (.num 0)
          .ok ⟨date, method, ty, species, total⟩
        else
          .ok ⟨date, method, ty, [], .num 0⟩
  | _ => .ok zeroCore

/-- `parse_fish_survey_data` (lines 94-235): the `try` body with the
`except Exception` handler installed. Total — no exception escapes. -/
def parse_fish_survey_data (raw : JValue) : JValue :=
  match parseBody raw with
  | .ok c => c.toObj
  | .error e => errorObj e

/-- Keys of a dict value, `[]` for non-dicts. -/
def objKeys : JValue → List String
  | .obj fs => fs.map Prod.fst
  | _ => []

/-- The canonical five keys of a parsed summary. -/
def coreKeys : List String :=
  ["survey_date", "survey_method", "survey_type", "fish_species", "total_fish_caught"]

/-!
## RemoteFetcher: `fetch_fish_survey_data` (fish_survey_fetcher.py 25-91)

The HTTP transport is abstracted as a function from the attempt index
to the attempt's outcome: an HTTP response whose body either decodes to
JSON or not, a timeout, or a connection error (the two
`requests.exceptions` branches of the source). The trace records the
returned payload, how many transport calls were made, and the backoff
sleeps performed between attempts (`1` second for generic failures,
`2` for timeouts — lines 72, 79, 86).
-/

/-- Outcome of one `requests.get` call: a response with status code and
JSON-decoded-or-malformed body, a `Timeout`, or a `RequestException`. -/
inductive TransportResult where
  | response (status : ℕ) (body : Option JValue)
  | timeout
  | reqError

/-- What one call of `fetch_fish_survey_data` did: the value returned,
the number of transport calls performed, and the backoff delays slept
between attempts, in order. -/
structure FetchTrace where
  payload : Option JValue
  calls : ℕ
  delays : List ℕ

/-- `MAX_RETRIES` (config.py line 64). -/
def MAX_RETRIES : ℕ := 3

/-- The `for attempt in range(MAX_RETRIES)` loop (lines 44-88):
`remaining` is the number of loop iterations left, `i` the current
attempt index, `calls`/`ds` the accumulated call count and reversed
delay list. Status 200 returns the decoded body, or `None` on a JSON
decode failure; 404 returns `None`; any other status, a timeout or a
request error sleeps and retries unless this was the last attempt. -/
def fetchLoop (transport : ℕ → TransportResult) :
    ℕ → ℕ → ℕ → List ℕ → FetchTrace
  | 0, _, calls, ds => ⟨none, calls, ds.reverse⟩
  | r + 1, i, calls, ds =>
    match transport i with
    | .response status body =>
      if status = 200 then
        match body with
        | some d => ⟨some d, calls + 1, ds.reverse⟩
        | none => ⟨none, calls + 1, ds.reverse⟩
      else if status = 404 then ⟨none, calls + 1, ds.reverse⟩
      else if r > 0 then fetchLoop transport r (i + 1) (calls + 1) (1 :: ds)
      else ⟨none, calls + 1, ds.reverse⟩
    | .timeout =>
      if r > 0 then fetchLoop transport r (i + 1) (calls + 1) (2 :: ds)
      else ⟨none, calls + 1, ds.reverse⟩
    | .reqError =>
      if r > 0 then fetchLoop transport r (i + 1) (calls + 1) (1 :: ds)
      else ⟨none, calls + 1, ds.reverse⟩

/-- `fetch_fish_survey_data` over an abstract transport. -/
def fetch_fish_survey_data (transport : ℕ → TransportResult) (maxRetries : ℕ) : FetchTrace :=
  fetchLoop transport maxRetries 0 0 []

/-- An attempt outcome the source classifies as transient (retried):
a status other than 200/404, a timeout, or a connection error. -/
def isTransientResult : TransportResult → Bool
  | .response s _ => !(s = 200 || s = 404)
  | .timeout => true
  | .reqError => true

/-- The backoff the source sleeps after a transient outcome: 2 seconds
after a timeout, 1 second otherwise. -/
def backoffDelay : TransportResult → ℕ
  | .timeout => 2
  | _ => 1

/-!
## RecordCache (fish_survey_fetcher.py 400-461) and per-key resolution
(`get_fish_survey_summary`, lines 238-287)

The cache file for one key is `Option CacheFile`: `none` when the file
does not exist; `content = none` models a file whose read or JSON
decode fails (both exception types are caught at line 439). Time is a
rational number of seconds. `json.dump`/`json.load` round-tripping of
a summary dict is modelled as the identity.
-/

/-- On-disk state of one key's cache file. -/
structure CacheFile where
  mtime : ℚ
  content : Option JValue

/-- The 24-hour freshness bound, in seconds: `24 * 60 * 60 = 86400`
(lines 430, 488; written as the literal so it reduces in the kernel). -/
def TTL_SECONDS : ℚ := 86400

/-- `_load_from_cache` (lines 412-441): absent file, expired file
(age strictly greater than the TTL) and unreadable/undecodable file all
yield `None`. A file whose JSON content is `null` loads as Python
`None` and is therefore also indistinguishable from a miss, which the
last branch reflects. -/
def load_from_cache (now : ℚ) (file : Option CacheFile) : Option JValue :=
  match file with
  | none => none
  | some f =>
    if ratSub now f.mtime > TTL_SECONDS then none
    else
      match f.content with
      | none => none
      | some .null => none
      | some v => some v

/-- Environment of one `get_fish_survey_summary` call: the key's cache
file, the transport behind `fetch_fish_survey_data`, the current time
(used both for freshness and as `time.time()` timestamps), and whether
the cache write succeeds (`_save_to_cache` catches `IOError` and leaves
the old state in place, line 460). -/
structure ResolveEnv where
  cache : Option CacheFile
  transport : ℕ → TransportResult
  now : ℚ
  writeOk : Bool

/-- `_save_to_cache` (lines 443-461): skips `None`, otherwise
overwrites the entry with the current time as write timestamp; an I/O
failure leaves the previous state. -/
def save_to_cache (env : ResolveEnv) (data : JValue) : Option CacheFile :=
  match data with
  | .null => env.cache
  | d => if env.writeOk then some ⟨env.now, some d⟩ else env.cache

/-- The `default_data` dict synthesized for an absent fetch
(lines 260-269). -/
def sentinelSummary (dowlknum : String) (now : ℚ) : JValue :=
  .obj [("dowlknum", .str dowlknum),
        ("survey_date", .null),
        ("survey_method", .null),
        ("survey_type", .null),
        ("fish_species", .arr []),
        ("total_fish_caught", .num 0),
        ("fetch_timestamp", .num now),
        ("no_data_available", .bool true)]

/-- `d[k] = v` on an association list: overwrite in place or append. -/
def setField : List (String × JValue) → String → JValue → List (String × JValue)
  | [], k, x => [(k, x)]
  | (k0, v0) :: rest, k, x =>
    if k0 = k then (k, x) :: rest else (k0, v0) :: setField rest k x

/-- `d[k] = v` on a dict value (only ever applied to dicts in the
source; non-dicts are returned unchanged). -/
def dictSet (v : JValue) (k : String) (x : JValue) : JValue :=
  match v with
  | .obj fs => .obj (setField fs k x)
  | other => other

/-- Result of one per-key resolution: the returned dict, the number of
transport calls performed, and the key's cache file afterwards. -/
structure ResolveOutcome where
  result : JValue
  networkCalls : ℕ
  cacheAfter : Option CacheFile

/-- `get_fish_survey_summary` (lines 238-287): consult the cache when
enabled and return a fresh hit unchanged; otherwise fetch — an absent
fetch synthesizes the sentinel summary, a payload is parsed; either
way `dowlknum` and `fetch_timestamp` are stamped in (the sentinel
carries them already) and the result is persisted when caching is
enabled. -/
def get_fish_survey_summary (dowlknum : String) (useCache : Bool) (env : ResolveEnv) :
    ResolveOutcome :=
  let cached := if useCache then load_from_cache env.now env.cache else none
  match cached with
  | some c => ⟨c, 0, env.cache⟩
  | none =>
    let tr := fetch_fish_survey_data env.transport MAX_RETRIES
    match tr.payload with
    | none =>
      let dd := sentinelSummary dowlknum env.now
      ⟨dd, tr.calls, if useCache then save_to_cache env dd else env.cache⟩
    | some raw =>
      let sd := dictSet (dictSet (parse_fish_survey_data raw) "dowlknum" (.str dowlknum))
        "fetch_timestamp" (.num env.now)
      ⟨sd, tr.calls, if useCache then save_to_cache env sd else env.cache⟩

/-!
## BatchCoordinator (fish_survey_fetcher.py 290-397)

A batch result is a Python dict from key to summary-or-`None`
(`None` models the parallel mode's per-future exception handler at
lines 338-341). The per-key resolution is abstracted as a function
`resolve`; the parallel mode writes results in completion order, an
arbitrary permutation of the submitted keys, each key being written by
exactly one unit of work.
-/

/-- A Python dict from DOWLKNUM to summary-or-`None`, in insertion
order. -/
abbrev BatchResult : Type := List (String × Option JValue)

/-- `results[dowlknum] = survey_data`: overwrite or append. -/
def dictInsert : BatchResult → String → Option JValue → BatchResult
  | [], k, v => [(k, v)]
  | (k0, v0) :: rest, k, v =>
    if k0 = k then (k, v) :: rest else (k0, v0) :: dictInsert rest k v

/-- Lookup in a batch result. -/
def dictFind : BatchResult → String → Option (Option JValue)
  | [], _ => none
  | (k0, v0) :: rest, k => if k0 = k then some v0 else dictFind rest k

/-- Assemble the result map by resolving keys in the given order. -/
def batchAssemble (resolve : String → Option JValue) (order : List String) : BatchResult :=
  order.foldl (fun m k => dictInsert m k (resolve k)) []

/-- `batch_fetch_fish_surveys_parallel` (lines 290-347): one unit of
work per submitted key; `as_completed` yields them in an arbitrary
completion order; a unit that raised is recorded as `None`
(both cases are folded into `resolve`). -/
def batch_fetch_fish_surveys_parallel (resolve : String → Option JValue)
    (completionOrder : List String) : BatchResult :=
  batchAssemble resolve completionOrder

/-- `batch_fetch_fish_surveys` (lines 350-397): parallel mode for more
than one key when enabled, else sequential processing in input order. -/
def batch_fetch_fish_surveys (resolve : String → Option JValue) (useParallel : Bool)
    (keys completionOrder : List String) : BatchResult :=
  if useParallel && decide (keys.length > 1) then
    batch_fetch_fish_surveys_parallel resolve completionOrder
  else
    batchAssemble resolve keys

/-!
## Spec-side selection (for the C2/C3 refinement)

`specSelect` restates the spec's selection heuristic in its own words
— candidate filtering by type tag and non-empty catch list, most
recent by string-lexicographic date (first among ties), then the
first record in original order with any catch entry. The refinement
theorem identifies it with the code's `selectSurvey` on well-formed
survey lists.
-/

/-- Field of a dict value, `none` for non-dicts. -/
def fieldOf (v : JValue) (k : String) : Option JValue :=
  match v with
  | .obj fs => lookupField fs k
  | _ => none

/-- A survey record shaped the way the API delivers them: a dict whose
`fishCatchSummaries` field (when present) is a list and whose
`surveyDate` field (when present) is a string. -/
def wfSurvey (s : JValue) : Bool :=
  match s with
  | .obj fs =>
    (match lookupField fs "fishCatchSummaries" with
     | none => true
     | some (.arr _) => true
     | some _ => false)
    &&
    (match lookupField fs "surveyDate" with
     | none => true
     | some (.str _) => true
     | some _ => false)
  | _ => false

/-- From the spec's words: a record with any catch entry. -/
def specAnyCatch (s : JValue) : Bool :=
  match fieldOf s "fishCatchSummaries" with
  | some (.arr (_ :: _)) => true
  | _ => false

/-- From the spec's words: a candidate record of the given type tag
with at least one catch entry. -/
def specIsCand (ty : String) (s : JValue) : Bool :=
  match fieldOf s "surveyType" with
  | some (.str t) => if t = ty then specAnyCatch s else false
  | _ => false

/-- From the spec's words: the record's date string, empty when
missing. -/
def specDateOf (s : JValue) : String :=
  match fieldOf s "surveyDate" with
  | some (.str d) => d
  | _ => ""

/-- From the spec's words: the most recent record by descending
string-lexicographic date, the first among records sharing the
maximal date. -/
def specMostRecent (l : List JValue) : Option JValue :=
  match l with
  | [] => none
  | x :: xs =>
    some (xs.foldl (fun best y =>
      if charListLt (specDateOf best).toList (specDateOf y).toList then y else best) x)

/-- From the spec's words: the four-step selection priority. -/
def specSelect (surveys : List JValue) : Option JValue :=
  match specMostRecent (surveys.filter (specIsCand "Standard Survey")) with
  | some s => some s
  | none =>
    match specMostRecent (surveys.filter (specIsCand "Targeted Survey")) with
    | some s => some s
    | none => surveys.find? specAnyCatch

/-- `c.get(k, dflt)` for a catch entry known to be a dict (the default
is returned for non-dicts, which the refinement hypotheses exclude). -/
def entryField (c : JValue) (k : String) (dflt : JValue) : JValue :=
  match c with
  | .obj fs => (lookupField fs k).getD dflt
  | _ => dflt

/-- The species entry one catch entry maps to. -/
def specEntryOf (c : JValue) : JValue :=
  mkSpeciesInfo (entryField c "species" (.str "Unknown"))
    (entryField c "totalCatch" (.num 0))
    (entryField c "averageWeight" .null)
    (entryField c "totalWeight" .null)
    (entryField c "quartileWeight" .null)
    (entryField c "gear" (.str "Unknown"))
    (entryField c "CPUE" .null)

/-- The numeric count of one catch entry. -/
def specCount (c : JValue) : ℚ :=
  (pyNumVal (entryField c "totalCatch" (.num 0))).getD 0

/-- Is the value a dict? -/
def isObjB : JValue → Bool
  | .obj _ => true
  | _ => false

/-- The entry's count is numeric, so that `total_fish += count`
cannot raise. -/
def countNumeric (c : JValue) : Bool :=
  (pyNumVal (entryField c "totalCatch" (.num 0))).isSome

/-- Membership of a key in a dict value. -/
def hasKey (v : JValue) (k : String) : Bool :=
  (fieldOf v k).isSome

/-- The payload shape `{"status": ..., "result": {"surveys": [...]}}`
the DNR API returns. -/
def mkPayload (surveys : List JValue) : JValue :=
  .obj [("status", .str "SUCCESS"), ("result", .obj [("surveys", .arr surveys)])]

/-- Is the value a float or `None` — what "coerced to numeric-or-null"
means for a stored statistic? -/
def isNumericOrNull : JValue → Bool
  | .null => true
  | .num _ => true
  | _ => false

/-- A weight statistic of one species entry. -/
def weightStatOf (sp : JValue) (k : String) : Option JValue :=
  fieldOf ((fieldOf sp "weight_stats").getD .null) k

/-!
## Concrete instances used by witnesses and counterexamples
-/

/-- A `Standard Survey` record dated 2020-01-01 with one catch entry. -/
def stdSurvey2020 : JValue :=
  .obj [("surveyType", .str "Standard Survey"), ("surveyDate", .str "2020-01-01"),
        ("fishCatchSummaries", .arr [.obj [("species", .str "walleye"), ("totalCatch", .num 4)]])]

/-- A `Standard Survey` record dated 2022-06-15 with one catch entry. -/
def stdSurvey2022 : JValue :=
  .obj [("surveyType", .str "Standard Survey"), ("surveyDate", .str "2022-06-15"),
        ("fishCatchSummaries", .arr [.obj [("species", .str "pike"), ("totalCatch", .num 7)]])]

/-- The spec's tie-break example: two standard records, 2020 first. -/
def surveysTie : List JValue := [stdSurvey2020, stdSurvey2022]

/-- A payload whose chosen record carries a catch entry with a
non-numeric count, making `total_fish += count` raise. -/
def badCountPayload : JValue :=
  mkPayload [.obj [("surveyType", .str "Standard Survey"), ("surveyDate", .str "2022-06-15"),
    ("fishCatchSummaries", .arr [.obj [("species", .str "pike"), ("totalCatch", .str "seven")]])]]

/-- A payload whose catch entry has the string `"12.5"` in the
`quartileWeight` field. -/
def quartilePayload : JValue :=
  mkPayload [.obj [("surveyType", .str "Standard Survey"), ("surveyDate", .str "2022-06-15"),
    ("fishCatchSummaries", .arr [.obj [("species", .str "perch"), ("totalCatch", .num 4),
      ("quartileWeight", .str "12.5")]])]]

/-- An environment with an empty cache whose transport succeeds at once
with `quartilePayload`. -/
def successEnv : ResolveEnv :=
  ⟨none, fun _ => .response 200 (some quartilePayload), 0, true⟩

/-- A transport that times out, then returns a 500, then succeeds. -/
def flakyTransport : ℕ → TransportResult := fun i =>
  if i = 0 then .timeout
  else if i = 1 then .response 500 none
  else .response 200 (some (.obj []))

/-- A transport whose every attempt fails with a connection error. -/
def downTransport : ℕ → TransportResult := fun _ => .reqError

/-- A transport that always responds 404. -/
def absent404Transport : ℕ → TransportResult := fun _ => .response 404 none

/-- A transport that always responds 200 with an undecodable body. -/
def badBodyTransport : ℕ → TransportResult := fun _ => .response 200 none

/-- An environment whose cache entry was written at time 0 and which is
consulted at time 86401 — one second past the TTL. -/
def expiredEnv : ResolveEnv :=
  ⟨some ⟨0, some (.obj [("cached", .bool true)])⟩, absent404Transport, 86401, true⟩

/-!
## Shared lemmas
-/

theorem ratAdd_eq (x y : ℚ) : ratAdd x y = x + y := by
  have hx : ((x.den : ℚ)) ≠ 0 := by exact_mod_cast x.den_nz
  have hy : ((y.den : ℚ)) ≠ 0 := by exact_mod_cast y.den_nz
  unfold ratAdd
  rw [Rat.mkRat_eq_div]
  push_cast
  conv_rhs => rw [← Rat.num_div_den x, ← Rat.num_div_den y]
  rw [div_add_div _ _ hx hy]
  ring_nf

theorem ratSub_eq (x y : ℚ) : ratSub x y = x - y := by
  have hx : ((x.den : ℚ)) ≠ 0 := by exact_mod_cast x.den_nz
  have hy : ((y.den : ℚ)) ≠ 0 := by exact_mod_cast y.den_nz
  unfold ratSub
  rw [Rat.mkRat_eq_div]
  push_cast
  conv_rhs => rw [← Rat.num_div_den x, ← Rat.num_div_den y]
  rw [div_sub_div _ _ hx hy]
  ring_nf

@[simp] theorem ok_bind {α β : Type} (a : α) (f : α → Except String β) :
    ((Except.ok a : Except String α) >>= f) = f a := rfl

@[simp] theorem error_bind {α β : Type} (e : String) (f : α → Except String β) :
    ((Except.error e : Except String α) >>= f) = Except.error e := rfl

theorem parse_keys_shape (raw : JValue) :
    objKeys (parse_fish_survey_data raw) = coreKeys ∨
    objKeys (parse_fish_survey_data raw) = coreKeys ++ ["parse_error"] := by
  rw [parse_fish_survey_data]
  cases parseBody raw with
  | ok c => exact Or.inl rfl
  | error e => exact Or.inr rfl

theorem parse_isObj (raw : JValue) : isObjB (parse_fish_survey_data raw) = true := by
  rw [parse_fish_survey_data]
  cases parseBody raw with
  | ok c => rfl
  | error e => rfl

/-!
## C10 — parser totality and the `parse_error` escape hatch
-/

/-- C10: for every dictionary input the parser returns a summary dict
and never raises (in the embedding, `parse_fish_survey_data` is a total
function into dicts): the result's keys are the five canonical keys,
or those five plus `parse_error` when an exception was caught deeper in
parsing. A payload without the `result` container, or whose container
is not a dict, yields the plain zero summary; the concrete
`badCountPayload` (a catch entry whose count is the string `"seven"`,
making the running total un-summable) yields the zero summary extended
with the undocumented `parse_error` field. -/
theorem parser_total_and_error_shape :
    (∀ raw, objKeys (parse_fish_survey_data raw) = coreKeys ∨
      objKeys (parse_fish_survey_data raw) = coreKeys ++ ["parse_error"]) ∧
    (∀ fs, lookupField fs "result" = none →
      parse_fish_survey_data (.obj fs) = zeroCore.toObj) ∧
    (∀ fs v, lookupField fs "result" = some v → isObjB v = false →
      parse_fish_survey_data (.obj fs) = zeroCore.toObj) ∧
    parse_fish_survey_data badCountPayload =
      errorObj "TypeError: unsupported operand types for +" := by
  refine ⟨parse_keys_shape, ?_, ?_, rfl⟩
  · intro fs h
    rw [parse_fish_survey_data, parseBody]
    simp [pyContains, h, Except.bind]
  · intro fs v hv hobj
    cases v with
    | null => rw [parse_fish_survey_data, parseBody]; simp [pyContains, pySubscript, hv]
    | bool b => rw [parse_fish_survey_data, parseBody]; simp [pyContains, pySubscript, hv]
    | num q => rw [parse_fish_survey_data, parseBody]; simp [pyContains, pySubscript, hv]
    | str s => rw [parse_fish_survey_data, parseBody]; simp [pyContains, pySubscript, hv]
    | arr xs => rw [parse_fish_survey_data, parseBody]; simp [pyContains, pySubscript, hv]
    | obj gs => simp [isObjB] at hobj

/-- Witness for C10 at concrete inputs: a payload without a `result`
key yields the zero summary. -/
theorem parser_total_and_error_shape_witness :
    lookupField [("status", JValue.str "SUCCESS")] "result" = none ∧
    parse_fish_survey_data (.obj [("status", .str "SUCCESS")]) = zeroCore.toObj :=
  ⟨rfl, parser_total_and_error_shape.2.1 [("status", .str "SUCCESS")] rfl⟩

/-!
## C1 — exactly one result entry per requested key
-/

theorem dictInsert_fresh (m : BatchResult) (k : String) (v : Option JValue)
    (h : k ∉ m.map Prod.fst) : dictInsert m k v = m ++ [(k, v)] := by
  induction m with
  | nil => rfl
  | cons p rest ih =>
    obtain ⟨k0, v0⟩ := p
    simp only [List.map_cons, List.mem_cons, not_or] at h
    rw [dictInsert, if_neg (fun hh => h.1 hh.symm), ih h.2]
    simp

theorem batchAssemble_eq_map (resolve : String → Option JValue) :
    ∀ (order : List String) (m : BatchResult),
      order.Nodup → (∀ k ∈ order, k ∉ m.map Prod.fst) →
      order.foldl (fun acc k => dictInsert acc k (resolve k)) m =
        m ++ order.map (fun k => (k, resolve k)) := by
  intro order
  induction order with
  | nil => intro m _ _; simp
  | cons a rest ih =>
    intro m hnd hdisj
    obtain ⟨ha, hrest⟩ := List.nodup_cons.mp hnd
    rw [List.foldl_cons, dictInsert_fresh m a _ (hdisj a (by simp))]
    rw [ih (m ++ [(a, resolve a)]) hrest ?_]
    · simp
    · intro k hk
      simp only [List.map_append, List.mem_append, not_or]
      refine ⟨hdisj k (List.mem_cons_of_mem a hk), ?_⟩
      simp only [List.map_cons, List.map_nil, List.mem_singleton]
      exact fun hka => ha (hka ▸ hk)

theorem dictFind_map (resolve : String → Option JValue) (order : List String) (k : String)
    (h : k ∈ order) :
    dictFind (order.map (fun k => (k, resolve k))) k = some (resolve k) := by
  induction order with
  | nil => cases h
  | cons a rest ih =>
    by_cases hk : a = k
    · subst hk; simp [dictFind]
    · rcases List.mem_cons.mp h with rfl | hmem
      · exact absurd rfl hk
      · simp [dictFind, hk, ih hmem]

/-- C1: for a list of distinct keys, the batch fetch — in parallel mode
(result map written in an arbitrary completion order) and in sequential
mode alike — returns a map with exactly one entry per requested key,
`N` entries in total, whatever each key resolved to. -/
theorem batch_one_entry_per_key (resolve : String → Option JValue) (useParallel : Bool)
    (keys completionOrder : List String)
    (hnd : keys.Nodup) (hperm : completionOrder.Perm keys) :
    (batch_fetch_fish_surveys resolve useParallel keys completionOrder).length = keys.length ∧
    (∀ k ∈ keys,
      dictFind (batch_fetch_fish_surveys resolve useParallel keys completionOrder) k =
        some (resolve k)) := by
  have hco : completionOrder.Nodup := hperm.nodup_iff.mpr hnd
  rw [batch_fetch_fish_surveys]
  by_cases hp : (useParallel && decide (keys.length > 1)) = true
  · rw [if_pos hp, batch_fetch_fish_surveys_parallel, batchAssemble]
    rw [batchAssemble_eq_map resolve completionOrder [] hco (by simp)]
    simp only [List.nil_append]
    refine ⟨by rw [List.length_map, hperm.length_eq], ?_⟩
    intro k hk
    exact dictFind_map resolve completionOrder k (hperm.mem_iff.mpr hk)
  · rw [if_neg hp, batchAssemble]
    rw [batchAssemble_eq_map resolve keys [] hnd (by simp)]
    simp only [List.nil_append]
    exact ⟨by rw [List.length_map], fun k hk => dictFind_map resolve keys k hk⟩

/-- Witness for C1: three distinct keys resolved in a different
completion order, every key resolving to the per-key-failure `None`. -/
theorem batch_one_entry_per_key_witness :
    (["27000100", "27000200", "27000300"] : List String).Nodup ∧
    (["27000300", "27000100", "27000200"] : List String).Perm
      ["27000100", "27000200", "27000300"] ∧
    (batch_fetch_fish_surveys (fun _ => none) true
      ["27000100", "27000200", "27000300"] ["27000300", "27000100", "27000200"]).length = 3 ∧
    (∀ k ∈ (["27000100", "27000200", "27000300"] : List String),
      dictFind (batch_fetch_fish_surveys (fun _ => none) true
        ["27000100", "27000200", "27000300"] ["27000300", "27000100", "27000200"]) k =
        some none) := by
  have h := batch_one_entry_per_key (fun _ => none) true
    ["27000100", "27000200", "27000300"] ["27000300", "27000100", "27000200"]
    (by decide) (by decide)
  exact ⟨by decide, by decide, h.1, h.2⟩

/-!
## C4, C5 — retry and backoff classification
-/

theorem fetchLoop_transient_step (transport : ℕ → TransportResult) (r i calls : ℕ)
    (ds : List ℕ) (hr : 1 < r) (h : isTransientResult (transport i) = true) :
    fetchLoop transport r i calls ds =
      fetchLoop transport (r - 1) (i + 1) (calls + 1) (backoffDelay (transport i) :: ds) := by
  obtain ⟨n, rfl⟩ : ∃ n, r = n + 2 := ⟨r - 2, by omega⟩
  have hsub : n + 2 - 1 = n + 1 := by omega
  rw [hsub]
  cases htr : transport i with
  | response s b =>
    rw [htr] at h
    simp only [isTransientResult, Bool.not_eq_true', Bool.or_eq_false_iff,
      decide_eq_false_iff_not] at h
    simp only [fetchLoop, htr, if_neg h.1, if_neg h.2, if_pos (Nat.succ_pos n)]
    rfl
  | timeout => simp only [fetchLoop, htr, if_pos (Nat.succ_pos n)]; rfl
  | reqError => simp only [fetchLoop, htr, if_pos (Nat.succ_pos n)]; rfl

theorem fetchLoop_transient_last (transport : ℕ → TransportResult) (i calls : ℕ)
    (ds : List ℕ) (h : isTransientResult (transport i) = true) :
    fetchLoop transport 1 i calls ds = ⟨none, calls + 1, ds.reverse⟩ := by
  cases htr : transport i with
  | response s b =>
    rw [htr] at h
    simp only [isTransientResult, Bool.not_eq_true', Bool.or_eq_false_iff,
      decide_eq_false_iff_not] at h
    simp [fetchLoop, htr, h.1, h.2]
  | timeout => simp [fetchLoop, htr]
  | reqError => simp [fetchLoop, htr]

theorem fetchLoop_success (transport : ℕ → TransportResult) (r i calls : ℕ)
    (ds : List ℕ) (d : JValue) (hr : 0 < r)
    (h : transport i = .response 200 (some d)) :
    fetchLoop transport r i calls ds = ⟨some d, calls + 1, ds.reverse⟩ := by
  obtain ⟨n, rfl⟩ : ∃ n, r = n + 1 := ⟨r - 1, by omega⟩
  simp [fetchLoop, h]

theorem fetchLoop_absent404 (transport : ℕ → TransportResult) (r i calls : ℕ)
    (ds : List ℕ) (b : Option JValue) (hr : 0 < r)
    (h : transport i = .response 404 b) :
    fetchLoop transport r i calls ds = ⟨none, calls + 1, ds.reverse⟩ := by
  obtain ⟨n, rfl⟩ : ∃ n, r = n + 1 := ⟨r - 1, by omega⟩
  simp [fetchLoop, h]

theorem fetchLoop_decode_failure (transport : ℕ → TransportResult) (r i calls : ℕ)
    (ds : List ℕ) (hr : 0 < r)
    (h : transport i = .response 200 none) :
    fetchLoop transport r i calls ds = ⟨none, calls + 1, ds.reverse⟩ := by
  obtain ⟨n, rfl⟩ : ∃ n, r = n + 1 := ⟨r - 1, by omega⟩
  simp [fetchLoop, h]

theorem fetchLoop_calls_lower (transport : ℕ → TransportResult) :
    ∀ (r i calls : ℕ) (ds : List ℕ), 0 < r →
      calls + 1 ≤ (fetchLoop transport r i calls ds).calls := by
  intro r
  induction r with
  | zero => intro i calls ds h; omega
  | succ n ih =>
    intro i calls ds _
    cases htr : transport i with
    | response s b =>
      simp only [fetchLoop, htr]
      by_cases h200 : s = 200
      · simp only [if_pos h200]; cases b <;> exact Nat.le_refl _
      · simp only [if_neg h200]
        by_cases h404 : s = 404
        · simp only [if_pos h404]
          exact Nat.le_refl _
        · simp only [if_neg h404]
          by_cases hn : n > 0
          · simp only [if_pos hn]
            exact le_trans (by omega) (ih (i + 1) (calls + 1) _ hn)
          · simp only [if_neg hn]
            exact Nat.le_refl _
    | timeout =>
      simp only [fetchLoop, htr]
      by_cases hn : n > 0
      · simp only [if_pos hn]
        exact le_trans (by omega) (ih (i + 1) (calls + 1) _ hn)
      · simp only [if_neg hn]
        exact Nat.le_refl _
    | reqError =>
      simp only [fetchLoop, htr]
      by_cases hn : n > 0
      · simp only [if_pos hn]
        exact le_trans (by omega) (ih (i + 1) (calls + 1) _ hn)
      · simp only [if_neg hn]
        exact Nat.le_refl _

/-- C4: with `MAX_RETRIES = 3`, a fetch whose first two attempts fail
transiently and whose third succeeds returns the decoded payload after
exactly three transport calls, having backed off twice with the
per-failure-class delay; a fetch whose every attempt fails transiently
performs exactly `MAX_RETRIES` transport calls, backs off between
attempts (not after the last), and returns absent. -/
theorem retry_then_success_transport_calls (transport : ℕ → TransportResult) :
    (∀ d, isTransientResult (transport 0) = true → isTransientResult (transport 1) = true →
      transport 2 = .response 200 (some d) →
      fetch_fish_survey_data transport MAX_RETRIES =
        ⟨some d, 3, [backoffDelay (transport 0), backoffDelay (transport 1)]⟩) ∧
    ((∀ i, i < MAX_RETRIES → isTransientResult (transport i) = true) →
      fetch_fish_survey_data transport MAX_RETRIES =
        ⟨none, MAX_RETRIES, [backoffDelay (transport 0), backoffDelay (transport 1)]⟩) := by
  constructor
  · intro d h0 h1 h2
    rw [fetch_fish_survey_data, MAX_RETRIES]
    rw [fetchLoop_transient_step transport 3 0 0 [] (by omega) h0]
    norm_num
    rw [fetchLoop_transient_step transport 2 1 1 _ (by omega) h1]
    norm_num
    rw [fetchLoop_success transport 1 2 2 _ d (by omega) h2]
    rfl
  · intro hall
    rw [fetch_fish_survey_data, MAX_RETRIES]
    rw [fetchLoop_transient_step transport 3 0 0 [] (by omega) (hall 0 (by rw [MAX_RETRIES]; omega))]
    norm_num
    rw [fetchLoop_transient_step transport 2 1 1 _ (by omega) (hall 1 (by rw [MAX_RETRIES]; omega))]
    norm_num
    rw [fetchLoop_transient_last transport 2 2 _ (hall 2 (by rw [MAX_RETRIES]; omega))]
    rfl

/-- Witness for C4: a timeout, then a 500, then success — three calls,
delays 2 then 1; and an always-failing transport — three calls, two
delays of 1, absent result. -/
theorem retry_then_success_transport_calls_witness :
    isTransientResult (flakyTransport 0) = true ∧
    isTransientResult (flakyTransport 1) = true ∧
    flakyTransport 2 = .response 200 (some (.obj [])) ∧
    fetch_fish_survey_data flakyTransport MAX_RETRIES = ⟨some (.obj []), 3, [2, 1]⟩ ∧
    (∀ i, i < MAX_RETRIES → isTransientResult (downTransport i) = true) ∧
    fetch_fish_survey_data downTransport MAX_RETRIES = ⟨none, MAX_RETRIES, [1, 1]⟩ :=
  ⟨rfl, rfl, rfl,
    (retry_then_success_transport_calls flakyTransport).1 (.obj []) rfl rfl rfl,
    fun _ _ => rfl,
    (retry_then_success_transport_calls downTransport).2 (fun _ _ => rfl)⟩

/-- C5: a first-attempt 404, or a first-attempt 200 whose body fails
JSON decoding, returns absent after exactly one transport call with no
backoff — never retried — whereas a transient first attempt leads to at
least a second transport call. -/
theorem no_retry_on_permanent_absence (transport : ℕ → TransportResult) (b : Option JValue) :
    (transport 0 = .response 404 b →
      fetch_fish_survey_data transport MAX_RETRIES = ⟨none, 1, []⟩) ∧
    (transport 0 = .response 200 none →
      fetch_fish_survey_data transport MAX_RETRIES = ⟨none, 1, []⟩) ∧
    (isTransientResult (transport 0) = true →
      2 ≤ (fetch_fish_survey_data transport MAX_RETRIES).calls) := by
  refine ⟨?_, ?_, ?_⟩
  · intro h
    rw [fetch_fish_survey_data, MAX_RETRIES,
      fetchLoop_absent404 transport 3 0 0 [] b (by omega) h]
    rfl
  · intro h
    rw [fetch_fish_survey_data, MAX_RETRIES,
      fetchLoop_decode_failure transport 3 0 0 [] (by omega) h]
    rfl
  · intro h
    rw [fetch_fish_survey_data, MAX_RETRIES,
      fetchLoop_transient_step transport 3 0 0 [] (by omega) h]
    norm_num
    exact fetchLoop_calls_lower transport 2 1 1 _ (by omega)

/-- Witness for C5: an always-404 transport, an always-bad-body
transport, and the always-failing transport of C4. -/
theorem no_retry_on_permanent_absence_witness :
    absent404Transport 0 = .response 404 none ∧
    fetch_fish_survey_data absent404Transport MAX_RETRIES = ⟨none, 1, []⟩ ∧
    badBodyTransport 0 = .response 200 none ∧
    fetch_fish_survey_data badBodyTransport MAX_RETRIES = ⟨none, 1, []⟩ ∧
    isTransientResult (downTransport 0) = true ∧
    2 ≤ (fetch_fish_survey_data downTransport MAX_RETRIES).calls :=
  ⟨rfl, (no_retry_on_permanent_absence absent404Transport none).1 rfl, rfl,
    (no_retry_on_permanent_absence badBodyTransport none).2.1 rfl, rfl,
    (no_retry_on_permanent_absence downTransport none).2.2 rfl⟩

/-!
## Cache and per-key resolution lemmas
-/

theorem isObjB_exists (v : JValue) (h : isObjB v = true) : ∃ fs, v = .obj fs := by
  cases v <;> simp_all [isObjB]

theorem dictSet_isObj (v : JValue) (k : String) (x : JValue) (h : isObjB v = true) :
    isObjB (dictSet v k x) = true := by
  obtain ⟨fs, rfl⟩ := isObjB_exists v h
  rfl

theorem lookupField_setField_self (fs : List (String × JValue)) (k : String) (x : JValue) :
    lookupField (setField fs k x) k = some x := by
  induction fs with
  | nil => simp [setField, lookupField]
  | cons p rest ih =>
    obtain ⟨k0, v0⟩ := p
    by_cases hk : k0 = k
    · simp [setField, hk, lookupField]
    · simp [setField, hk, lookupField, ih]

theorem lookupField_setField_other (fs : List (String × JValue)) (k : String) (x : JValue)
    (q : String) (h : q ≠ k) : lookupField (setField fs k x) q = lookupField fs q := by
  induction fs with
  | nil =>
    simp only [setField, lookupField]
    rw [if_neg (fun hh => h hh.symm)]
  | cons p rest ih =>
    obtain ⟨k0, v0⟩ := p
    by_cases hk : k0 = k
    · subst hk
      have hkq : ¬ k0 = q := fun hh => h hh.symm
      simp only [setField, if_pos rfl, lookupField, if_neg hkq]
    · simp [setField, hk, lookupField, ih]

theorem hasKey_dictSet_self (v : JValue) (k : String) (x : JValue) (h : isObjB v = true) :
    hasKey (dictSet v k x) k = true := by
  obtain ⟨fs, rfl⟩ := isObjB_exists v h
  simp [hasKey, dictSet, fieldOf, lookupField_setField_self]

theorem hasKey_dictSet_other (v : JValue) (k : String) (x : JValue) (q : String)
    (h : q ≠ k) : hasKey (dictSet v k x) q = hasKey v q := by
  cases v with
  | obj fs => simp [hasKey, dictSet, fieldOf, lookupField_setField_other fs k x q h]
  | null => rfl
  | bool b => rfl
  | num n => rfl
  | str s => rfl
  | arr xs => rfl

theorem parse_hasKey_core (raw : JValue) (k : String) (hk : k ∈ coreKeys) :
    hasKey (parse_fish_survey_data raw) k = true := by
  simp only [coreKeys, List.mem_cons, List.not_mem_nil, or_false] at hk
  rw [parse_fish_survey_data]
  cases parseBody raw with
  | ok c => rcases hk with rfl | rfl | rfl | rfl | rfl <;> rfl
  | error e => rcases hk with rfl | rfl | rfl | rfl | rfl <;> rfl

theorem parse_hasKey_extra (raw : JValue) (k : String)
    (hk : k = "dowlknum" ∨ k = "fetch_timestamp" ∨ k = "no_data_available") :
    hasKey (parse_fish_survey_data raw) k = false := by
  rw [parse_fish_survey_data]
  cases parseBody raw with
  | ok c => rcases hk with rfl | rfl | rfl <;> rfl
  | error e => rcases hk with rfl | rfl | rfl <;> rfl

theorem get_hit (dowlknum : String) (env : ResolveEnv) (c : JValue)
    (h : load_from_cache env.now env.cache = some c) :
    get_fish_survey_summary dowlknum true env = ⟨c, 0, env.cache⟩ := by
  simp [get_fish_survey_summary, h]

theorem load_fresh_obj (now2 t : ℚ) (r : JValue) (hr : isObjB r = true)
    (hfresh : ¬ ratSub now2 t > TTL_SECONDS) :
    load_from_cache now2 (some ⟨t, some r⟩) = some r := by
  obtain ⟨fs, rfl⟩ := isObjB_exists r hr
  simp [load_from_cache, hfresh]

theorem get_miss_shape (dowlknum : String) (uc : Bool) (env : ResolveEnv)
    (hmiss : load_from_cache env.now env.cache = none) :
    get_fish_survey_summary dowlknum uc env =
      (match (fetch_fish_survey_data env.transport MAX_RETRIES).payload with
       | none =>
         ⟨sentinelSummary dowlknum env.now,
          (fetch_fish_survey_data env.transport MAX_RETRIES).calls,
          if uc then save_to_cache env (sentinelSummary dowlknum env.now) else env.cache⟩
       | some raw =>
         ⟨dictSet (dictSet (parse_fish_survey_data raw) "dowlknum" (.str dowlknum))
            "fetch_timestamp" (.num env.now),
          (fetch_fish_survey_data env.transport MAX_RETRIES).calls,
          if uc then
            save_to_cache env
              (dictSet (dictSet (parse_fish_survey_data raw) "dowlknum" (.str dowlknum))
                "fetch_timestamp" (.num env.now))
          else env.cache⟩) := by
  cases uc with
  | true => simp [get_fish_survey_summary, hmiss]
  | false => simp [get_fish_survey_summary]

theorem save_obj_written (env : ResolveEnv) (d : JValue) (hobj : isObjB d = true)
    (hw : env.writeOk = true) :
    save_to_cache env d = some ⟨env.now, some d⟩ := by
  obtain ⟨fs, rfl⟩ := isObjB_exists d hobj
  simp [save_to_cache, hw]

theorem get_miss_cache_written (dowlknum : String) (env : ResolveEnv)
    (hmiss : load_from_cache env.now env.cache = none) (hw : env.writeOk = true) :
    isObjB (get_fish_survey_summary dowlknum true env).result = true ∧
    (get_fish_survey_summary dowlknum true env).cacheAfter =
      some ⟨env.now, some (get_fish_survey_summary dowlknum true env).result⟩ := by
  rw [get_miss_shape dowlknum true env hmiss]
  cases hpay : (fetch_fish_survey_data env.transport MAX_RETRIES).payload with
  | none =>
    refine ⟨rfl, ?_⟩
    simp only [if_pos rfl]
    exact save_obj_written env (sentinelSummary dowlknum env.now) rfl hw
  | some raw =>
    have hobj : isObjB (dictSet (dictSet (parse_fish_survey_data raw) "dowlknum"
        (.str dowlknum)) "fetch_timestamp" (.num env.now)) = true :=
      dictSet_isObj _ _ _ (dictSet_isObj _ _ _ (parse_isObj raw))
    refine ⟨hobj, ?_⟩
    simp only [if_pos rfl]
    exact save_obj_written env _ hobj hw

/-!
## C6 — cache read: absent, expired, unreadable, fresh
-/

/-- C6: the cache read yields absent when no entry exists, when the
entry is unreadable or fails to decode, or when its age (`now` minus
the last write time, as `ratSub`) strictly exceeds the 24-hour TTL; a
fresh readable entry is returned exactly as stored; and an expired
entry makes `get_fish_survey_summary` consult the fetcher afresh, just
like a miss. (The embedding is total, mirroring that `_load_from_cache`
catches every decode/read error and never raises.) -/
theorem cache_get_absent_or_fresh :
    (∀ now : ℚ, load_from_cache now none = none) ∧
    (∀ (now : ℚ) (f : CacheFile), ratSub now f.mtime > TTL_SECONDS →
      load_from_cache now (some f) = none) ∧
    (∀ (now : ℚ) (f : CacheFile), f.content = none →
      load_from_cache now (some f) = none) ∧
    (∀ (now : ℚ) (f : CacheFile) (v : JValue), f.content = some v → v ≠ .null →
      ¬ ratSub now f.mtime > TTL_SECONDS → load_from_cache now (some f) = some v) ∧
    (∀ (dowlknum : String) (env : ResolveEnv) (f : CacheFile), env.cache = some f →
      ratSub env.now f.mtime > TTL_SECONDS →
      (get_fish_survey_summary dowlknum true env).networkCalls =
        (fetch_fish_survey_data env.transport MAX_RETRIES).calls) := by
  refine ⟨fun _ => rfl, ?_, ?_, ?_, ?_⟩
  · intro now f h
    simp [load_from_cache, h]
  · intro now f h
    by_cases hexp : ratSub now f.mtime > TTL_SECONDS
    · simp [load_from_cache, hexp]
    · simp [load_from_cache, hexp, h]
  · intro now f v hc hv hexp
    cases v with
    | null => exact absurd rfl hv
    | bool b => simp [load_from_cache, hexp, hc]
    | num q => simp [load_from_cache, hexp, hc]
    | str s => simp [load_from_cache, hexp, hc]
    | arr xs => simp [load_from_cache, hexp, hc]
    | obj fs => simp [load_from_cache, hexp, hc]
  · intro dowlknum env f hc hexp
    have hmiss : load_from_cache env.now env.cache = none := by
      rw [hc]; simp [load_from_cache, hexp]
    rw [get_miss_shape dowlknum true env hmiss]
    cases hpay : (fetch_fish_survey_data env.transport MAX_RETRIES).payload <;> rfl

/-- Witness for C6 at concrete instances: a one-second-expired entry is
a miss and the resolution performs the fetcher's transport calls; a
fresh entry is returned as stored. -/
theorem cache_get_absent_or_fresh_witness :
    ratSub (86401 : ℚ) 0 > TTL_SECONDS ∧
    load_from_cache 86401 (some ⟨0, some (.obj [("cached", .bool true)])⟩) = none ∧
    (¬ ratSub (86400 : ℚ) 0 > TTL_SECONDS) ∧
    load_from_cache 86400 (some ⟨0, some (.obj [("cached", .bool true)])⟩) =
      some (.obj [("cached", .bool true)]) ∧
    expiredEnv.cache = some ⟨0, some (.obj [("cached", .bool true)])⟩ ∧
    (get_fish_survey_summary "27000100" true expiredEnv).networkCalls =
      (fetch_fish_survey_data expiredEnv.transport MAX_RETRIES).calls := by
  refine ⟨by decide, ?_, by decide, ?_, rfl, ?_⟩
  · exact cache_get_absent_or_fresh.2.1 86401 ⟨0, some (.obj [("cached", .bool true)])⟩
      (by decide)
  · exact cache_get_absent_or_fresh.2.2.2.1 86400 ⟨0, some (.obj [("cached", .bool true)])⟩
      (.obj [("cached", .bool true)]) rfl (fun hh => JValue.noConfusion hh) (by decide)
  · exact cache_get_absent_or_fresh.2.2.2.2 "27000100" expiredEnv
      ⟨0, some (.obj [("cached", .bool true)])⟩ rfl (by decide)

/-!
## C7 — idempotence within the TTL window
-/

/-- C7: with caching enabled, a first call that misses the cache
persists its result, and a second call for the same key within the TTL
window (whatever its transport or write behaviour) returns the
identical summary and performs zero network requests — the fresh cache
hit is returned unchanged without consulting the fetcher. -/
theorem resolution_idempotent_within_ttl (dowlknum : String) (env : ResolveEnv) (now2 : ℚ)
    (hmiss : load_from_cache env.now env.cache = none)
    (hw : env.writeOk = true)
    (hfresh : ¬ ratSub now2 env.now > TTL_SECONDS) :
    ∀ (tr2 : ℕ → TransportResult) (w2 : Bool),
      (get_fish_survey_summary dowlknum true
        ⟨(get_fish_survey_summary dowlknum true env).cacheAfter, tr2, now2, w2⟩).result =
        (get_fish_survey_summary dowlknum true env).result ∧
      (get_fish_survey_summary dowlknum true
        ⟨(get_fish_survey_summary dowlknum true env).cacheAfter, tr2, now2, w2⟩).networkCalls =
        0 := by
  intro tr2 w2
  obtain ⟨hobj, hca⟩ := get_miss_cache_written dowlknum env hmiss hw
  have hload2 : load_from_cache now2
      (get_fish_survey_summary dowlknum true env).cacheAfter =
      some (get_fish_survey_summary dowlknum true env).result := by
    rw [hca]
    exact load_fresh_obj now2 env.now _ hobj hfresh
  have h2 := get_hit dowlknum
    ⟨(get_fish_survey_summary dowlknum true env).cacheAfter, tr2, now2, w2⟩
    (get_fish_survey_summary dowlknum true env).result hload2
  rw [h2]
  exact ⟨rfl, rfl⟩

/-- Witness for C7: a first call on an empty cache at time 0, a second
call at time 100 against a dead transport — the values agree and the
second call performs no transport calls. -/
theorem resolution_idempotent_within_ttl_witness :
    load_from_cache successEnv.now successEnv.cache = none ∧
    successEnv.writeOk = true ∧
    (¬ ratSub (100 : ℚ) successEnv.now > TTL_SECONDS) ∧
    ((get_fish_survey_summary "27000100" true
        ⟨(get_fish_survey_summary "27000100" true successEnv).cacheAfter,
          downTransport, 100, true⟩).result =
      (get_fish_survey_summary "27000100" true successEnv).result ∧
     (get_fish_survey_summary "27000100" true
        ⟨(get_fish_survey_summary "27000100" true successEnv).cacheAfter,
          downTransport, 100, true⟩).networkCalls = 0) :=
  ⟨rfl, rfl, by decide,
    resolution_idempotent_within_ttl "27000100" successEnv 100 rfl rfl (by decide)
      downTransport true⟩

/-!
## C8 — the "no data" sentinel
-/

/-- C8: a resolution that misses the cache and whose fetch returns
absent synthesizes the sentinel summary — empty species list, zero
total, the fetch timestamp, and the `no_data_available` flag set —
returns it to the caller, persists it when caching is enabled, and a
subsequent resolution of the same key within the TTL window performs
zero network calls. -/
theorem sentinel_synthesized_on_absent_fetch (dowlknum : String) (uc : Bool)
    (env : ResolveEnv)
    (hmiss : load_from_cache env.now env.cache = none)
    (habsent : (fetch_fish_survey_data env.transport MAX_RETRIES).payload = none) :
    (get_fish_survey_summary dowlknum uc env).result = sentinelSummary dowlknum env.now ∧
    fieldOf (sentinelSummary dowlknum env.now) "fish_species" = some (.arr []) ∧
    fieldOf (sentinelSummary dowlknum env.now) "total_fish_caught" = some (.num 0) ∧
    fieldOf (sentinelSummary dowlknum env.now) "fetch_timestamp" = some (.num env.now) ∧
    fieldOf (sentinelSummary dowlknum env.now) "no_data_available" = some (.bool true) ∧
    (uc = true → env.writeOk = true →
      (get_fish_survey_summary dowlknum uc env).cacheAfter =
        some ⟨env.now, some (sentinelSummary dowlknum env.now)⟩) ∧
    (uc = true → env.writeOk = true →
      ∀ (now2 : ℚ) (tr2 : ℕ → TransportResult) (w2 : Bool),
        ¬ ratSub now2 env.now > TTL_SECONDS →
        (get_fish_survey_summary dowlknum true
          ⟨(get_fish_survey_summary dowlknum uc env).cacheAfter, tr2, now2, w2⟩).networkCalls =
          0) := by
  have hshape := get_miss_shape dowlknum uc env hmiss
  rw [habsent] at hshape
  refine ⟨by rw [hshape], rfl, rfl, rfl, rfl, ?_, ?_⟩
  · intro huc hw
    subst huc
    rw [hshape]
    simp only [if_pos rfl]
    exact save_obj_written env (sentinelSummary dowlknum env.now) rfl hw
  · intro huc hw now2 tr2 w2 hfresh
    subst huc
    have hca : (get_fish_survey_summary dowlknum true env).cacheAfter =
        some ⟨env.now, some (sentinelSummary dowlknum env.now)⟩ := by
      rw [hshape]
      simp only [if_pos rfl]
      exact save_obj_written env (sentinelSummary dowlknum env.now) rfl hw
    have hload2 : load_from_cache now2
        (get_fish_survey_summary dowlknum true env).cacheAfter =
        some (sentinelSummary dowlknum env.now) := by
      rw [hca]
      exact load_fresh_obj now2 env.now _ rfl hfresh
    rw [get_hit dowlknum
      ⟨(get_fish_survey_summary dowlknum true env).cacheAfter, tr2, now2, w2⟩
      (sentinelSummary dowlknum env.now) hload2]

/-- Witness for C8: an empty cache and an always-404 transport. -/
theorem sentinel_synthesized_on_absent_fetch_witness :
    load_from_cache (0 : ℚ) none = none ∧
    (fetch_fish_survey_data absent404Transport MAX_RETRIES).payload = none ∧
    (get_fish_survey_summary "27000100" true
      ⟨none, absent404Transport, 0, true⟩).result = sentinelSummary "27000100" 0 ∧
    (get_fish_survey_summary "27000100" true
      ⟨none, absent404Transport, 0, true⟩).cacheAfter =
      some ⟨0, some (sentinelSummary "27000100" 0)⟩ := by
  have h := sentinel_synthesized_on_absent_fetch "27000100" true
    ⟨none, absent404Transport, 0, true⟩ rfl rfl
  exact ⟨rfl, rfl, h.1, h.2.2.2.2.2.1 rfl rfl⟩

/-!
## C9 — field inventory of returned/persisted summaries

The claim as stated is false: the `no_data_available` flag is set only
on the synthesized sentinel; a summary built from a successfully
fetched payload never carries that key (lines 277-281 add only
`dowlknum` and `fetch_timestamp` to the parsed dict).
-/

/-- Counterexample to C9 as stated: resolving a key whose fetch
succeeds returns a summary without the `no_data_available` key, so not
every returned summary carries the full canonical field set including
the no-data flag. -/
theorem fetched_summary_lacks_flag_cex :
    hasKey ((get_fish_survey_summary "27000100" true successEnv).result)
      "no_data_available" = false := rfl

/-- C9 (amended): every summary the per-key resolution returns after a
cache miss carries the date, method, type, species-list and total-count
keys plus `dowlknum` and `fetch_timestamp`; the `no_data_available`
flag is present exactly when the fetch returned absent and the sentinel
was synthesized — a summary built from a fetched payload lacks it. -/
theorem summary_field_inventory (dowlknum : String) (env : ResolveEnv)
    (hmiss : load_from_cache env.now env.cache = none) :
    (∀ k, k ∈ coreKeys →
      hasKey (get_fish_survey_summary dowlknum true env).result k = true) ∧
    hasKey (get_fish_survey_summary dowlknum true env).result "dowlknum" = true ∧
    hasKey (get_fish_survey_summary dowlknum true env).result "fetch_timestamp" = true ∧
    (hasKey (get_fish_survey_summary dowlknum true env).result "no_data_available" = true ↔
      (fetch_fish_survey_data env.transport MAX_RETRIES).payload = none) := by
  rw [get_miss_shape dowlknum true env hmiss]
  cases hpay : (fetch_fish_survey_data env.transport MAX_RETRIES).payload with
  | none =>
    refine ⟨?_, rfl, rfl, by simp; rfl⟩
    intro k hk
    simp only [coreKeys, List.mem_cons, List.not_mem_nil, or_false] at hk
    rcases hk with rfl | rfl | rfl | rfl | rfl <;> rfl
  | some raw =>
    have hobj1 : isObjB (dictSet (parse_fish_survey_data raw) "dowlknum"
        (.str dowlknum)) = true := dictSet_isObj _ _ _ (parse_isObj raw)
    refine ⟨?_, ?_, ?_, ?_⟩
    · intro k hk
      have hk5 := hk
      simp only [coreKeys, List.mem_cons, List.not_mem_nil, or_false] at hk5
      have hne1 : k ≠ "fetch_timestamp" := by
        rcases hk5 with rfl | rfl | rfl | rfl | rfl <;> decide
      have hne2 : k ≠ "dowlknum" := by
        rcases hk5 with rfl | rfl | rfl | rfl | rfl <;> decide
      rw [hasKey_dictSet_other _ _ _ _ hne1, hasKey_dictSet_other _ _ _ _ hne2]
      exact parse_hasKey_core raw k hk
    · rw [hasKey_dictSet_other _ _ _ _ (by decide)]
      exact hasKey_dictSet_self _ _ _ (parse_isObj raw)
    · exact hasKey_dictSet_self _ _ _ hobj1
    · rw [hasKey_dictSet_other _ _ _ _ (by decide),
        hasKey_dictSet_other _ _ _ _ (by decide),
        parse_hasKey_extra raw _ (Or.inr (Or.inr rfl))]
      simp

/-- Witness for C9 at the concrete success environment. -/
theorem summary_field_inventory_witness :
    load_from_cache successEnv.now successEnv.cache = none ∧
    hasKey (get_fish_survey_summary "27000100" true successEnv).result "dowlknum" = true ∧
    hasKey (get_fish_survey_summary "27000100" true successEnv).result
      "fetch_timestamp" = true ∧
    (hasKey (get_fish_survey_summary "27000100" true successEnv).result
        "no_data_available" = true ↔
      (fetch_fish_survey_data successEnv.transport MAX_RETRIES).payload = none) := by
  have h := summary_field_inventory "27000100" successEnv rfl
  exact ⟨rfl, h.2.1, h.2.2.1, h.2.2.2⟩

/-!
## C2 — refinement of the selection heuristic
-/

theorem wfSurvey_obj (s : JValue) (h : wfSurvey s = true) : ∃ fs, s = .obj fs := by
  cases s <;> simp_all [wfSurvey]

theorem isTypeWithCatch_wf (ty : String) (s : JValue) (h : wfSurvey s = true) :
    isTypeWithCatch ty s = .ok (specIsCand ty s) := by
  obtain ⟨fs, rfl⟩ := wfSurvey_obj s h
  simp only [wfSurvey, Bool.and_eq_true] at h
  obtain ⟨hcatch, hdate⟩ := h
  rw [isTypeWithCatch]
  simp only [pyGet, ok_bind]
  cases hst : lookupField fs "surveyType" with
  | none => simp [specIsCand, fieldOf, hst]
  | some tv =>
    cases tv with
    | str u =>
      simp only [Option.getD]
      by_cases hu : u = ty
      · subst hu
        simp only [if_pos rfl]
        cases hfc : lookupField fs "fishCatchSummaries" with
        | none => simp [truthy, specIsCand, specAnyCatch, fieldOf, hst, hfc]
        | some cv =>
          rw [hfc] at hcatch
          cases cv with
          | arr xs =>
            cases xs with
            | nil => simp [truthy, specIsCand, specAnyCatch, fieldOf, hst, hfc]
            | cons y ys =>
              simp [truthy, pyLen, specIsCand, specAnyCatch, fieldOf, hst, hfc]
          | null => simp at hcatch
          | bool b => simp at hcatch
          | num q => simp at hcatch
          | str t => simp at hcatch
          | obj gs => simp at hcatch
      · simp [if_neg hu, specIsCand, fieldOf, hst, hu]
    | null => simp [specIsCand, fieldOf, hst]
    | bool b => simp [specIsCand, fieldOf, hst]
    | num q => simp [specIsCand, fieldOf, hst]
    | arr xs => simp [specIsCand, fieldOf, hst]
    | obj gs => simp [specIsCand, fieldOf, hst]

theorem filterE_ok {p : JValue → Except String Bool} {q : JValue → Bool}
    (l : List JValue) (h : ∀ x ∈ l, p x = .ok (q x)) :
    filterE p l = .ok (l.filter q) := by
  induction l with
  | nil => rfl
  | cons x xs ih =>
    rw [filterE, h x (by simp), ok_bind, ih (fun y hy => h y (by simp [hy])), ok_bind]
    rw [List.filter_cons]

theorem dateKey_wf (s : JValue) (h : wfSurvey s = true) :
    pyGet s "surveyDate" (.str "") = .ok (.str (specDateOf s)) := by
  obtain ⟨fs, rfl⟩ := wfSurvey_obj s h
  simp only [wfSurvey, Bool.and_eq_true] at h
  obtain ⟨hcatch, hdate⟩ := h
  cases hd : lookupField fs "surveyDate" with
  | none => simp [pyGet, hd, specDateOf, fieldOf]
  | some dv =>
    rw [hd] at hdate
    cases dv with
    | str d => simp [pyGet, hd, specDateOf, fieldOf]
    | null => simp at hdate
    | bool b => simp at hdate
    | num q => simp at hdate
    | arr xs => simp at hdate
    | obj gs => simp at hdate

theorem selStep_wf (best y : JValue) (hb : wfSurvey best = true) (hy : wfSurvey y = true) :
    (do
      let bk ← pyGet best "surveyDate" (.str "")
      let yk ← pyGet y "surveyDate" (.str "")
      let lt ← pyLt bk yk
      Except.ok (if lt then y else best)) =
    Except.ok (if charListLt (specDateOf best).toList (specDateOf y).toList then y
      else best) := by
  rw [dateKey_wf best hb, ok_bind, dateKey_wf y hy, ok_bind]
  rfl

theorem wf_selStep (best y : JValue) (hb : wfSurvey best = true) (hy : wfSurvey y = true) :
    wfSurvey (if charListLt (specDateOf best).toList (specDateOf y).toList then y
      else best) = true := by
  cases hlt : charListLt (specDateOf best).toList (specDateOf y).toList with
  | true => simpa using hy
  | false => simpa using hb

theorem selectMostRecent_wf (l : List JValue) (h : ∀ s ∈ l, wfSurvey s = true) :
    selectMostRecent l = .ok (specMostRecent l) := by
  cases l with
  | nil => rfl
  | cons x xs =>
    rw [selectMostRecent, specMostRecent]
    have haux : ∀ (ys : List JValue) (b : JValue), wfSurvey b = true →
        (∀ s ∈ ys, wfSurvey s = true) →
        List.foldlM (fun best y => do
          let bk ← pyGet best "surveyDate" (.str "")
          let yk ← pyGet y "surveyDate" (.str "")
          let lt ← pyLt bk yk
          Except.ok (if lt then y else best)) b ys =
        .ok (List.foldl (fun best y =>
          if charListLt (specDateOf best).toList (specDateOf y).toList then y else best)
          b ys) := by
      intro ys
      induction ys with
      | nil => intro b _ _; rfl
      | cons y ys2 ih =>
        intro b hb hall
        have hy := hall y (by simp)
        rw [List.foldlM_cons, selStep_wf b y hb hy, ok_bind]
        rw [ih _ (wf_selStep b y hb hy) (fun s hs => hall s (by simp [hs]))]
        rw [List.foldl_cons]
    rw [haux xs x (h x (by simp)) (fun s hs => h s (by simp [hs])), ok_bind]

theorem firstWithCatch_wf (l : List JValue) (h : ∀ s ∈ l, wfSurvey s = true) :
    firstWithCatch l = .ok (l.find? specAnyCatch) := by
  induction l with
  | nil => rfl
  | cons s rest ih =>
    have hs := h s (by simp)
    have hrest := ih (fun t ht => h t (by simp [ht]))
    obtain ⟨fs, rfl⟩ := wfSurvey_obj s hs
    have hs2 := hs
    simp only [wfSurvey, Bool.and_eq_true] at hs2
    obtain ⟨hcatch, hdate⟩ := hs2
    rw [firstWithCatch]
    cases hfc : lookupField fs "fishCatchSummaries" with
    | none =>
      simp only [pyGet, hfc, Option.getD, ok_bind, truthy]
      rw [if_neg (by simp)]
      rw [hrest, List.find?]
      simp [specAnyCatch, fieldOf, hfc]
    | some cv =>
      rw [hfc] at hcatch
      cases cv with
      | arr xs =>
        cases xs with
        | nil =>
          simp only [pyGet, hfc, Option.getD, ok_bind, truthy]
          rw [if_neg (by simp [List.isEmpty])]
          rw [hrest, List.find?]
          simp [specAnyCatch, fieldOf, hfc]
        | cons y ys =>
          simp only [pyGet, hfc, Option.getD, ok_bind, truthy]
          rw [if_pos (by simp [List.isEmpty])]
          simp only [pyLen, ok_bind]
          rw [if_pos (by simp)]
          rw [List.find?]
          simp [specAnyCatch, fieldOf, hfc]
      | null => simp at hcatch
      | bool b => simp at hcatch
      | num q => simp at hcatch
      | str t => simp at hcatch
      | obj gs => simp at hcatch

theorem selectSurvey_wf (ss : List JValue) (h : ∀ s ∈ ss, wfSurvey s = true) :
    selectSurvey ss = .ok (specSelect ss) := by
  rw [selectSurvey, specSelect]
  rw [filterE_ok ss (fun x hx => isTypeWithCatch_wf "Standard Survey" x (h x hx)), ok_bind]
  rw [selectMostRecent_wf _ (fun s hs => h s (List.mem_of_mem_filter hs)), ok_bind]
  cases specMostRecent (ss.filter (specIsCand "Standard Survey")) with
  | some s => rfl
  | none =>
    rw [filterE_ok ss (fun x hx => isTypeWithCatch_wf "Targeted Survey" x (h x hx)), ok_bind]
    rw [selectMostRecent_wf _ (fun s hs => h s (List.mem_of_mem_filter hs)), ok_bind]
    cases specMostRecent (ss.filter (specIsCand "Targeted Survey")) with
    | some s => rfl
    | none => exact firstWithCatch_wf ss h

theorem specFold_mem : ∀ (rest : List JValue) (b : JValue),
    List.foldl (fun best y =>
      if charListLt (specDateOf best).toList (specDateOf y).toList then y else best)
      b rest = b ∨
    List.foldl (fun best y =>
      if charListLt (specDateOf best).toList (specDateOf y).toList then y else best)
      b rest ∈ rest := by
  intro rest
  induction rest with
  | nil => intro b; exact Or.inl rfl
  | cons y ys ih =>
    intro b
    rw [List.foldl_cons]
    rcases ih (if charListLt (specDateOf b).toList (specDateOf y).toList then y else b)
      with heq | hmem
    · rw [heq]
      cases hlt : charListLt (specDateOf b).toList (specDateOf y).toList with
      | true => right; simp
      | false => left; simp
    · right; exact List.mem_cons_of_mem y hmem

theorem specMostRecent_mem (l : List JValue) (x : JValue)
    (h : specMostRecent l = some x) : x ∈ l := by
  cases l with
  | nil => cases h
  | cons a rest =>
    simp only [specMostRecent, Option.some.injEq] at h
    rcases specFold_mem rest a with heq | hmem
    · rw [heq] at h; rw [← h]; exact List.mem_cons_self a rest
    · rw [h] at hmem; exact List.mem_cons_of_mem a hmem

theorem specSelect_mem (ss : List JValue) (sel : JValue)
    (h : specSelect ss = some sel) : sel ∈ ss := by
  rw [specSelect] at h
  cases h1 : specMostRecent (ss.filter (specIsCand "Standard Survey")) with
  | some s =>
    rw [h1] at h
    injection h with h2
    rw [← h2]
    exact List.mem_of_mem_filter (specMostRecent_mem _ _ h1)
  | none =>
    rw [h1] at h
    cases h2 : specMostRecent (ss.filter (specIsCand "Targeted Survey")) with
    | some s =>
      rw [h2] at h
      injection h with h3
      rw [← h3]
      exact List.mem_of_mem_filter (specMostRecent_mem _ _ h2)
    | none =>
      rw [h2] at h
      exact List.mem_of_find?_eq_some h

/-- `parseBody` on a well-shaped non-empty payload reduces to the
selection followed by the extraction of the chosen record. -/
theorem parseBody_mkPayload (ss : List JValue) (hne : ss ≠ []) :
    parseBody (mkPayload ss) =
      (selectSurvey ss >>= fun osel =>
        match osel with
        | none => .ok zeroCore
        | some sel => do
          let date ← pyGet sel "surveyDate" .null
          let method ← pyGet sel "surveyMethod" .null
          let ty ← pyGet sel "surveyType" .null
          let hasCatch ← pyContains sel "fishCatchSummaries"
          if hasCatch then do
            let catchesV ← pySubscript sel "fishCatchSummaries"
            let catches ← pyIter catchesV
            let (species, total) ← catchLoop catches [] (.num 0)
            .ok ⟨date, method, ty, species, total⟩
          else
            .ok ⟨date, method, ty, [], .num 0⟩) := by
  obtain ⟨s, rest, rfl⟩ : ∃ a l, ss = a :: l := by
    cases ss with
    | nil => exact absurd rfl hne
    | cons a l => exact ⟨a, l, rfl⟩
  rfl

/-- C2: on well-shaped survey records (dicts, string dates, list catch
fields) the code's selection is exactly the spec's priority order —
most recent standard survey with catch entries, else most recent
targeted survey with catch entries, else the first record in original
order with any catch entry — and when no record qualifies, parsing the
payload yields the zero-value summary. -/
theorem selection_heuristic_refines_spec (ss : List JValue)
    (h : ∀ s ∈ ss, wfSurvey s = true) :
    selectSurvey ss = .ok (specSelect ss) ∧
    (specSelect ss = none →
      parse_fish_survey_data (mkPayload ss) = zeroCore.toObj) := by
  refine ⟨selectSurvey_wf ss h, ?_⟩
  intro hnone
  cases ss with
  | nil => rfl
  | cons s rest =>
    rw [parse_fish_survey_data, parseBody_mkPayload _ (by simp),
      selectSurvey_wf _ h, hnone, ok_bind]

/-- Witness for C2: the spec's tie-break example — two standard
records dated 2020-01-01 and 2022-06-15 — selects the 2022-06-15
record. -/
theorem selection_heuristic_refines_spec_witness :
    (∀ s ∈ surveysTie, wfSurvey s = true) ∧
    selectSurvey surveysTie = .ok (specSelect surveysTie) ∧
    specSelect surveysTie = some stdSurvey2022 :=
  ⟨by decide, (selection_heuristic_refines_spec surveysTie (by decide)).1, rfl⟩

/-!
## C3 — species mapping, numeric coercion, per-record total

The claim as stated is false in one clause: it asserts that *the*
weight statistics are coerced to numeric-or-null, but the source's
coercion loop (line 197) iterates over `['average', 'total']` only, so
`quartileWeight` is carried through unmodified — a numeric string stays
a string. The remaining content (coercion of average/total/CPUE,
totals summed over the chosen record only) is proved below.
-/

/-- Counterexample to C3 as stated: after parsing `quartilePayload`,
the single species entry's `quartile` weight statistic is still the
string `"12.5"`, which is neither numeric nor null. -/
theorem quartile_weight_not_coerced_cex :
    (match fieldOf (parse_fish_survey_data quartilePayload) "fish_species" with
     | some (.arr [sp]) => weightStatOf sp "quartile"
     | _ => none) = some (.str "12.5") ∧
    isNumericOrNull (.str "12.5") = false := ⟨rfl, rfl⟩

theorem catchLoop_spec (cs : List JValue)
    (h : ∀ c ∈ cs, isObjB c = true ∧ countNumeric c = true) :
    ∀ (acc : List JValue) (t : ℚ),
      catchLoop cs acc (.num t) =
        .ok (acc ++ cs.map specEntryOf, .num (t + (cs.map specCount).sum)) := by
  induction cs with
  | nil => intro acc t; simp [catchLoop]
  | cons c rest ih =>
    intro acc t
    obtain ⟨hobj, hcnt⟩ := h c (by simp)
    obtain ⟨fs, rfl⟩ := isObjB_exists c hobj
    obtain ⟨q, hq⟩ : ∃ q, pyNumVal (entryField (.obj fs) "totalCatch" (.num 0)) = some q :=
      Option.isSome_iff_exists.mp hcnt
    rw [catchLoop]
    simp only [pyGet, ok_bind]
    have hadd : pyAdd (.num t) ((lookupField fs "totalCatch").getD (.num 0)) =
        .ok (.num (ratAdd t q)) := by
      rw [pyAdd]
      have : pyNumVal ((lookupField fs "totalCatch").getD (.num 0)) = some q := hq
      rw [this]
      rfl
    rw [hadd, ok_bind, ratAdd_eq]
    rw [ih (fun x hx => h x (by simp [hx])) _ (t + q)]
    have hcount : specCount (.obj fs) = q := by
      rw [specCount, hq]
      rfl
    simp only [List.map_cons, List.sum_cons, hcount]
    rw [List.append_assoc]
    have : (t + q) + (List.map specCount rest).sum = t + (q + (List.map specCount rest).sum) := by
      ring
    rw [this]
    rfl

/-- C3 (amended): for a well-shaped payload whose chosen record has
catch entries `cs` with numeric counts, every catch entry maps to its
species entry (with the `average` and `total` weight statistics and the
CPUE coerced to numeric-or-null; the `quartile` statistic carried
as-is), and the aggregate total equals the sum of the counts of the
chosen record's entries only — records not chosen contribute nothing.
The coercion itself sends the numeric string `"12.5"` to the float
12.5 and `None`, the empty string, and a non-numeric string to null,
raising nothing. -/
theorem species_mapping_and_total (ss : List JValue) (sel : JValue) (cs : List JValue)
    (h : ∀ s ∈ ss, wfSurvey s = true)
    (hsel : specSelect ss = some sel)
    (hcatch : fieldOf sel "fishCatchSummaries" = some (.arr cs))
    (hcs : ∀ c ∈ cs, isObjB c = true ∧ countNumeric c = true) :
    parse_fish_survey_data (mkPayload ss) =
      ParsedCore.toObj ⟨(fieldOf sel "surveyDate").getD .null,
        (fieldOf sel "surveyMethod").getD .null,
        (fieldOf sel "surveyType").getD .null,
        cs.map specEntryOf,
        .num ((cs.map specCount).sum)⟩ ∧
    coerceNumeric (.str "12.5") = .num (mkRat 25 2) ∧
    coerceNumeric .null = .null ∧
    coerceNumeric (.str "") = .null ∧
    coerceNumeric (.str "N/A") = .null := by
  have hne : ss ≠ [] := by
    intro hnil
    rw [hnil] at hsel
    simp [specSelect, specMostRecent, List.find?] at hsel
  have hmem := specSelect_mem ss sel hsel
  have hwf := h sel hmem
  obtain ⟨fs, rfl⟩ := wfSurvey_obj sel hwf
  refine ⟨?_, rfl, rfl, rfl, rfl⟩
  rw [parse_fish_survey_data, parseBody_mkPayload ss hne, selectSurvey_wf ss h, hsel,
    ok_bind]
  have hlk : lookupField fs "fishCatchSummaries" = some (.arr cs) := hcatch
  simp only [pyGet, ok_bind, pyContains, hlk, Option.isSome_some, if_pos rfl, pySubscript,
    pyIter, Option.getD]
  rw [catchLoop_spec cs hcs [] 0, ok_bind]
  simp only [List.nil_append, zero_add]
  rfl

/-- Witness for C3: the tie-break payload — the chosen 2022 record's
single catch entry maps to its species entry and the total is that
record's count alone (7), even though the unchosen 2020 record also
has catches. -/
theorem species_mapping_and_total_witness :
    (∀ s ∈ surveysTie, wfSurvey s = true) ∧
    specSelect surveysTie = some stdSurvey2022 ∧
    parse_fish_survey_data (mkPayload surveysTie) =
      ParsedCore.toObj ⟨(fieldOf stdSurvey2022 "surveyDate").getD .null,
        (fieldOf stdSurvey2022 "surveyMethod").getD .null,
        (fieldOf stdSurvey2022 "surveyType").getD .null,
        [.obj [("species", .str "pike"), ("totalCatch", .num 7)]].map specEntryOf,
        .num (([.obj [("species", .str "pike"), ("totalCatch", .num 7)]].map
          specCount).sum)⟩ :=
  ⟨by decide, rfl,
    (species_mapping_and_total surveysTie stdSurvey2022
      [.obj [("species", .str "pike"), ("totalCatch", .num 7)]]
      (by decide) rfl rfl (by decide)).1⟩

